import Mathlib

/-!
Verification of the chatterbox TTS server core pipeline: text segmentation,
parameter resolution, audio validation, encoding checks and performance
aggregation.  Strings from the Python source are modelled as `List Char`,
byte strings as `List Nat`, and Python floats as `ℚ` (all operations in
scope are exact decimal arithmetic except where explicitly abstracted).
-/

set_option maxRecDepth 10000

/-! ## Python string primitives -/

/-- Python whitespace characters for `str.strip`, `str.split` and the regex
class backslash-s (ASCII range). -/
def isPySpace (c : Char) : Bool :=
  c == ' ' || c == '\t' || c == '\n' || c == '\r' ||
  c == Char.ofNat 11 || c == Char.ofNat 12

/-- Python `str.strip()`: remove leading and trailing whitespace. -/
def pyStrip (l : List Char) : List Char :=
  ((l.dropWhile isPySpace).reverse.dropWhile isPySpace).reverse

/-- Split into maximal runs of non-whitespace characters, keeping empty runs
between adjacent whitespace characters (helper for `pySplit`). -/
def splitRuns : List Char → List (List Char)
  | [] => []
  | c :: cs =>
    if isPySpace c then [] :: splitRuns cs
    else
      match splitRuns cs with
      | [] => [[c]]
      | g :: gs => (c :: g) :: gs

/-- Python `str.split()` with no argument: whitespace-separated words,
empty strings dropped. -/
def pySplit (l : List Char) : List (List Char) :=
  (splitRuns l).filter (fun g => g ≠ [])

/-! ## Segmenter: `text_processing.py` -/

/-- The state threaded through the greedy word-packing loop of
`_split_by_words`: accumulated chunks and the current chunk. -/
def wordStep (maxLength : Nat) (st : List (List Char) × List Char)
    (word : List Char) : List (List Char) × List Char :=
  let chunks := st.1
  let current := st.2
  if current ≠ [] ∧ maxLength < current.length + word.length + 1 then
    (chunks ++ [pyStrip current], word)
  else
    (chunks, pyStrip (current ++ ' ' :: word))

/-- Model of `_split_by_words(text, max_length)`: split on whitespace and greedily
pack words, flushing the current chunk before a word that would push it
over the limit. -/
def splitByWords (text : List Char) (maxLength : Nat) : List (List Char) :=
  let st := (pySplit text).foldl (wordStep maxLength) ([], [])
  if pyStrip st.2 ≠ [] then st.1 ++ [pyStrip st.2] else st.1

/-- Is the character one of the sentence terminators `.` `!` `?`. -/
def isSentPunct (c : Char) : Bool :=
  c == '.' || c == '!' || c == '?'

/-- The regex split `re.split(r'([.!?]+\s*)', text)`: alternating list of
text parts and captured separator parts (a separator is a maximal run of
terminators followed by a maximal run of whitespace).  Fuel-based so the
kernel can evaluate it; the initial fuel is the length of the input. -/
def reSplitSentF : Nat → List Char → List (List Char)
  | 0, l => [l]
  | fuel + 1, l =>
    let pre := l.takeWhile (fun c => !isSentPunct c)
    let rest := l.dropWhile (fun c => !isSentPunct c)
    match rest with
    | [] => [pre]
    | _ =>
      let punct := rest.takeWhile isSentPunct
      let rest2 := rest.dropWhile isSentPunct
      let ws := rest2.takeWhile isPySpace
      let rest3 := rest2.dropWhile isPySpace
      pre :: (punct ++ ws) :: reSplitSentF fuel rest3

/-- Entry point for the sentence-boundary regex split. -/
def reSplitSent (l : List Char) : List (List Char) :=
  reSplitSentF l.length l

/-- The rejoin loop of `_split_by_sentences`: iterate `i` over
`range(0, len(sentences) - 1, 2)` pairing each text part with its following
separator (the separator always has non-whitespace content, so it is always
re-attached); a trailing unpaired text part is never visited. -/
def rejoinPairs : List (List Char) → List (List Char)
  | t :: s :: rest =>
    pyStrip (t ++ (if pyStrip s ≠ [] then s else [])) :: rejoinPairs rest
  | _ => []

/-- One step of the greedy sentence-packing loop of `_split_by_sentences`
(empty sentences are skipped). -/
def sentStep (maxLength : Nat) (st : List (List Char) × List Char)
    (sentence : List Char) : List (List Char) × List Char :=
  if sentence = [] then st
  else
    let chunks := st.1
    let current := st.2
    if current ≠ [] ∧ maxLength < current.length + sentence.length + 1 then
      (chunks ++ [pyStrip current], sentence)
    else
      (chunks, pyStrip (current ++ ' ' :: sentence))

/-- Model of `_split_by_sentences(text, max_length)`: regex-split into sentences,
rejoin terminators, greedily pack, then re-split any oversized chunk by
words. -/
def splitBySentences (text : List Char) (maxLength : Nat) : List (List Char) :=
  let fullSentences := rejoinPairs (reSplitSent text)
  let st := fullSentences.foldl (sentStep maxLength) ([], [])
  let chunks := if pyStrip st.2 ≠ [] then st.1 ++ [pyStrip st.2] else st.1
  (chunks.map (fun chunk =>
    if chunk.length ≤ maxLength then [chunk]
    else splitByWords chunk maxLength)).flatten

/-- Find the first paragraph separator match of `re.split(r'\n\s*\n', text)`:
returns the text before the match and the remainder after it, or `none`.
The separator starts at the first newline whose following whitespace run
contains another newline, and extends through the last newline of that run
(greedy with backtracking). -/
def findParaSep : List Char → Option (List Char × List Char)
  | [] => none
  | c :: t =>
    if c = '\n' ∧ (t.takeWhile isPySpace).contains '\n' then
      let run := t.takeWhile isPySpace
      let tailNonNl := (run.reverse.takeWhile (fun d => d ≠ '\n')).length
      some ([], t.drop (run.length - tailNonNl))
    else
      match findParaSep t with
      | none => none
      | some (pre, rem) => some (c :: pre, rem)

/-- Model of the regex split on blank lines: the list of paragraph pieces, separators
dropped.  Fuel-based; initial fuel is the length of the input. -/
def paraSplitF : Nat → List Char → List (List Char)
  | 0, l => [l]
  | fuel + 1, l =>
    match findParaSep l with
    | none => [l]
    | some (pre, rem) => pre :: paraSplitF fuel rem

/-- Entry point for the paragraph-break regex split. -/
def paraSplit (l : List Char) : List (List Char) :=
  paraSplitF l.length l

/-- Model of `_split_by_paragraphs(text, max_length)`: paragraphs within the limit
pass through; longer ones recurse into the sentence strategy; the result is
filtered to chunks that are non-empty after stripping. -/
def splitByParagraphs (text : List Char) (maxLength : Nat) : List (List Char) :=
  let chunks := (paraSplit text).foldl (fun acc para =>
    let para := pyStrip para
    if para = [] then acc
    else if para.length ≤ maxLength then acc ++ [para]
    else acc ++ splitBySentences para maxLength) []
  chunks.filter (fun chunk => pyStrip chunk ≠ [])

/-- The consecutive `max_length`-sized slices of `_split_by_fixed_size`.
Fuel-based; initial fuel is the length of the input. -/
def fixedSlices : Nat → List Char → Nat → List (List Char)
  | 0, _, _ => []
  | fuel + 1, l, maxLength =>
    if l = [] then []
    else l.take maxLength :: fixedSlices fuel (l.drop maxLength) maxLength

/-- Model of `_split_by_fixed_size(text, max_length)`: fixed slices, each stripped,
empty slices dropped. -/
def splitByFixedSize (text : List Char) (maxLength : Nat) : List (List Char) :=
  (fixedSlices text.length text maxLength).foldl (fun acc chunk =>
    if pyStrip chunk ≠ [] then acc ++ [pyStrip chunk] else acc) []

/-- The settings dictionary returned by `get_streaming_settings`. -/
structure StreamingSettings where
  chunk_size : Nat
  strategy : List Char
  quality : List Char
  deriving DecidableEq

/-- Model of `get_streaming_settings(chunk_size, strategy, quality)`: Python `or`
semantics make `None`, `0` and the empty string fall back to the defaults
of the (possibly defaulted) quality preset. -/
def getStreamingSettings (chunkSize : Option Nat)
    (strategy quality : Option (List Char)) : StreamingSettings :=
  let q := match quality with
    | none => "balanced".toList
    | some s => if s = [] then "balanced".toList else s
  let defaults : Nat × List Char :=
    if q = "fast".toList then (100, "word".toList)
    else if q = "balanced".toList then (200, "sentence".toList)
    else if q = "high".toList then (300, "paragraph".toList)
    else (200, "sentence".toList)
  let cs := match chunkSize with
    | none => defaults.1
    | some n => if n = 0 then defaults.1 else n
  let st := match strategy with
    | none => defaults.2
    | some s => if s = [] then defaults.2 else s
  ⟨cs, st, q⟩

/-- Model of `split_text_for_streaming(text, chunk_size, strategy, quality)`:
strip, resolve settings, short-circuit short text, then dispatch to the
strategy (unknown strategies fall back to sentences). -/
def splitTextForStreaming (text : List Char) (chunkSize : Option Nat)
    (strategy quality : Option (List Char)) : List (List Char) :=
  if pyStrip text = [] then []
  else
    let text := pyStrip text
    let settings := getStreamingSettings chunkSize strategy quality
    let maxLength := settings.chunk_size
    let strat := settings.strategy
    if text.length ≤ maxLength then [text]
    else if strat = "paragraph".toList then splitByParagraphs text maxLength
    else if strat = "sentence".toList then splitBySentences text maxLength
    else if strat = "word".toList then splitByWords text maxLength
    else if strat = "fixed".toList then splitByFixedSize text maxLength
    else splitBySentences text maxLength

/-- Whitespace normalization: the words of a text joined by single spaces
(collapsing runs of whitespace and trimming). -/
def normalizeWS (l : List Char) : List Char :=
  List.intercalate [' '] (pySplit l)

/-! ## MD5 (the `hashlib.md5` hex digest used for request identifiers)

Bytes are natural numbers below 256 and 32-bit words natural numbers below
2^32; all word arithmetic is taken modulo 2^32.  Bitwise operations are
defined by structural recursion on a 32-step fuel so the kernel can
evaluate them. -/

/-- Bitwise AND restricted to the low `fuel` bits. -/
def bitAndF : Nat → Nat → Nat → Nat
  | 0, _, _ => 0
  | fuel + 1, a, b =>
    (if a % 2 = 1 ∧ b % 2 = 1 then 1 else 0) + 2 * bitAndF fuel (a / 2) (b / 2)

/-- Bitwise OR restricted to the low `fuel` bits. -/
def bitOrF : Nat → Nat → Nat → Nat
  | 0, _, _ => 0
  | fuel + 1, a, b =>
    (if a % 2 = 1 ∨ b % 2 = 1 then 1 else 0) + 2 * bitOrF fuel (a / 2) (b / 2)

/-- Bitwise XOR restricted to the low `fuel` bits. -/
def bitXorF : Nat → Nat → Nat → Nat
  | 0, _, _ => 0
  | fuel + 1, a, b =>
    (if (a % 2 = 1) ≠ (b % 2 = 1) then 1 else 0) + 2 * bitXorF fuel (a / 2) (b / 2)

/-- Bitwise AND on 32-bit words. -/
def land32 (a b : Nat) : Nat := bitAndF 32 a b

/-- Bitwise OR on 32-bit words. -/
def lor32 (a b : Nat) : Nat := bitOrF 32 a b

/-- Bitwise XOR on 32-bit words. -/
def lxor32 (a b : Nat) : Nat := bitXorF 32 a b

/-- Bitwise complement on 32-bit words (valid for arguments below 2^32). -/
def lnot32 (a : Nat) : Nat := 4294967295 - a

/-- Addition modulo 2^32. -/
def add32 (a b : Nat) : Nat := (a + b) % 4294967296

/-- Left rotation of a 32-bit word by `s` places. -/
def rotl32 (x s : Nat) : Nat := (x * 2 ^ s) % 4294967296 + x / 2 ^ (32 - s)

/-- The MD5 sine-derived round constants. -/
def md5K : List Nat := [
  3614090360, 3905402710, 606105819, 3250441966, 4118548399, 1200080426, 2821735955, 4249261313,
  1770035416, 2336552879, 4294925233, 2304563134, 1804603682, 4254626195, 2792965006, 1236535329,
  4129170786, 3225465664, 643717713, 3921069994, 3593408605, 38016083, 3634488961, 3889429448,
  568446438, 3275163606, 4107603335, 1163531501, 2850285829, 4243563512, 1735328473, 2368359562,
  4294588738, 2272392833, 1839030562, 4259657740, 2763975236, 1272893353, 4139469664, 3200236656,
  681279174, 3936430074, 3572445317, 76029189, 3654602809, 3873151461, 530742520, 3299628645,
  4096336452, 1126891415, 2878612391, 4237533241, 1700485571, 2399980690, 4293915773, 2240044497,
  1873313359, 4264355552, 2734768916, 1309151649, 4149444226, 3174756917, 718787259, 3951481745]

/-- The MD5 per-round left-rotation amounts. -/
def md5S : List Nat := [
  7, 12, 17, 22, 7, 12, 17, 22, 7, 12, 17, 22, 7, 12, 17, 22,
  5, 9, 14, 20, 5, 9, 14, 20, 5, 9, 14, 20, 5, 9, 14, 20,
  4, 11, 16, 23, 4, 11, 16, 23, 4, 11, 16, 23, 4, 11, 16, 23,
  6, 10, 15, 21, 6, 10, 15, 21, 6, 10, 15, 21, 6, 10, 15, 21]

/-- The 8 little-endian bytes of a 64-bit length field. -/
def le64 (n : Nat) : List Nat :=
  [n % 256, n / 2 ^ 8 % 256, n / 2 ^ 16 % 256, n / 2 ^ 24 % 256,
   n / 2 ^ 32 % 256, n / 2 ^ 40 % 256, n / 2 ^ 48 % 256, n / 2 ^ 56 % 256]

/-- The 4 little-endian bytes of a 32-bit word. -/
def le32 (n : Nat) : List Nat :=
  [n % 256, n / 256 % 256, n / 65536 % 256, n / 16777216 % 256]

/-- MD5 padding: append `0x80`, zero bytes to 56 mod 64, then the bit
length as a little-endian 64-bit field. -/
def md5pad (msg : List Nat) : List Nat :=
  msg ++ 128 :: List.replicate ((119 - msg.length % 64) % 64) 0
      ++ le64 (msg.length * 8 % 2 ^ 64)

/-- Split a byte list into consecutive 64-byte blocks (fuel-based). -/
def chunks64 : Nat → List Nat → List (List Nat)
  | 0, _ => []
  | fuel + 1, l => if l = [] then [] else l.take 64 :: chunks64 fuel (l.drop 64)

/-- Decode `count` little-endian 32-bit words from a byte list. -/
def words32 : Nat → List Nat → List Nat
  | 0, _ => []
  | count + 1, l =>
    (l.getD 0 0 + 256 * l.getD 1 0 + 65536 * l.getD 2 0 + 16777216 * l.getD 3 0)
      :: words32 count (l.drop 4)

/-- One MD5 round (round index `i`, message words `M`). -/
def md5round (M : List Nat) (st : Nat × Nat × Nat × Nat) (i : Nat) :
    Nat × Nat × Nat × Nat :=
  let a := st.1
  let b := st.2.1
  let c := st.2.2.1
  let d := st.2.2.2
  let fg : Nat × Nat :=
    if i < 16 then (lor32 (land32 b c) (land32 (lnot32 b) d), i)
    else if i < 32 then (lor32 (land32 d b) (land32 (lnot32 d) c), (5 * i + 1) % 16)
    else if i < 48 then (lxor32 b (lxor32 c d), (3 * i + 5) % 16)
    else (lxor32 c (lor32 b (lnot32 d)), 7 * i % 16)
  let sum := add32 (add32 (add32 fg.1 a) (md5K.getD i 0)) (M.getD fg.2 0)
  (d, add32 b (rotl32 sum (md5S.getD i 0)), b, c)

/-- Process one 64-byte block, updating the running state. -/
def md5block (st : Nat × Nat × Nat × Nat) (block : List Nat) :
    Nat × Nat × Nat × Nat :=
  let M := words32 16 block
  let r := (List.range 64).foldl (md5round M) st
  (add32 st.1 r.1, add32 st.2.1 r.2.1, add32 st.2.2.1 r.2.2.1, add32 st.2.2.2 r.2.2.2)

/-- The final MD5 state over a padded message. -/
def md5final (msg : List Nat) : Nat × Nat × Nat × Nat :=
  (chunks64 (md5pad msg).length (md5pad msg)).foldl md5block
    (1732584193, 4023233417, 2562383102, 271733878)

/-- The 16-byte MD5 digest of a byte string. -/
def md5digest (msg : List Nat) : List Nat :=
  le32 (md5final msg).1 ++ le32 (md5final msg).2.1
    ++ le32 (md5final msg).2.2.1 ++ le32 (md5final msg).2.2.2

/-- The sixteen lowercase hexadecimal digit characters. -/
def hexTable : List Char := "0123456789abcdef".toList

/-- The two lowercase hex characters of a byte, high nibble first. -/
def byteHex (b : Nat) : List Char :=
  [hexTable.getD (b / 16 % 16) '0', hexTable.getD (b % 16) '0']

/-- Model of `hashlib.md5(msg).hexdigest()` as a character list. -/
def md5hexdigest (msg : List Nat) : List Char :=
  ((md5digest msg).map byteHex).flatten

/-- UTF-8 encoding of a single character (as `str.encode()` does). -/
def utf8Char (c : Char) : List Nat :=
  let n := c.toNat
  if n < 128 then [n]
  else if n < 2048 then [192 + n / 64, 128 + n % 64]
  else if n < 65536 then [224 + n / 4096, 128 + n / 64 % 64, 128 + n % 64]
  else [240 + n / 262144, 128 + n / 4096 % 64, 128 + n / 64 % 64, 128 + n % 64]

/-- UTF-8 encoding of a character list. -/
def utf8Encode (l : List Char) : List Nat := (l.map utf8Char).flatten

/-! ## Voice presets and parameter resolution
(`voice_config.py`, `tts_service.py`) -/

/-- A voice preset record from `VOICE_PRESETS`: six numeric sampling
parameters plus descriptive metadata. -/
structure VoicePreset where
  temperature : ℚ
  top_p : ℚ
  min_p : ℚ
  repetition_penalty : ℚ
  exaggeration : ℚ
  cfg_weight : ℚ
  description : String
  use_case : String
  personality : String
  deriving DecidableEq

/-- The process-wide `VOICE_PRESETS` catalog. -/
def VOICE_PRESETS : List (String × VoicePreset) := [
  ("default", ⟨8/10, 1, 5/100, 12/10, 5/10, 5/10,
    "Balanced default voice with natural characteristics",
    "General purpose, conversational content", "neutral"⟩),
  ("masculine", ⟨2/10, 6/10, 3/100, 115/100, 3/10, 35/100,
    "Strong masculine voice with controlled characteristics",
    "Professional podcasts, tech content, authoritative narration", "confident"⟩),
  ("deep_male", ⟨15/100, 5/10, 2/100, 11/10, 2/10, 3/10,
    "Deep, stable male voice with minimal variation",
    "News, documentaries, serious content", "authoritative"⟩),
  ("professional", ⟨1/10, 4/10, 1/100, 105/100, 1/10, 25/100,
    "Corporate presenter style with clear diction",
    "Business presentations, formal announcements", "formal"⟩),
  ("conversational", ⟨6/10, 9/10, 8/100, 13/10, 7/10, 6/10,
    "Natural conversational style with expressive variation",
    "Casual podcasts, storytelling, interviews", "friendly"⟩),
  ("energetic", ⟨9/10, 1, 1/10, 14/10, 8/10, 7/10,
    "High-energy, enthusiastic delivery",
    "Marketing content, product demos, entertainment", "enthusiastic"⟩),
  ("feminine", ⟨4/10, 8/10, 6/100, 125/100, 4/10, 45/100,
    "Feminine voice characteristics",
    "When specifically requested for female voice content", "expressive"⟩)]

/-- Model of `get_voice_preset(preset_name)`: look up the catalog, raising a
`KeyError` for an unknown name. -/
def get_voice_preset (preset_name : String) : Except String VoicePreset :=
  match VOICE_PRESETS.lookup preset_name with
  | some preset => .ok preset
  | none => .error ("Voice preset " ++ preset_name ++ " not found")

/-- A `TTSRequest`: required text and preset name, optional prompt path and
six optional per-field numeric overrides. -/
structure TTSRequest where
  text : List Char
  voice_preset : String
  audio_prompt_path : Option String
  temperature : Option ℚ
  top_p : Option ℚ
  min_p : Option ℚ
  repetition_penalty : Option ℚ
  exaggeration : Option ℚ
  cfg_weight : Option ℚ
  deriving DecidableEq

/-- The fully resolved parameter set: every field present. -/
structure ResolvedParams where
  temperature : ℚ
  top_p : ℚ
  min_p : ℚ
  repetition_penalty : ℚ
  exaggeration : ℚ
  cfg_weight : ℚ
  deriving DecidableEq

/-- Model of `prepare_synthesis_parameters(request)`: derive the request identifier
from the MD5 hex digest of the first 50 characters of the text concatenated
with the current time (`timeStr` models `str(time.time())`), look up the
preset, and resolve each field as the override when set, else the preset
value. -/
def prepare_synthesis_parameters (request : TTSRequest) (timeStr : List Char) :
    Except String (ResolvedParams × List Char) :=
  let request_id := (md5hexdigest (utf8Encode (request.text.take 50 ++ timeStr))).take 6
  match get_voice_preset request.voice_preset with
  | .error e => .error e
  | .ok preset => .ok
      (⟨request.temperature.getD preset.temperature,
        request.top_p.getD preset.top_p,
        request.min_p.getD preset.min_p,
        request.repetition_penalty.getD preset.repetition_penalty,
        request.exaggeration.getD preset.exaggeration,
        request.cfg_weight.getD preset.cfg_weight⟩, request_id)

/-! ## Audio validation (`_process_audio_tensor` in `tts_service.py`)

A tensor is a shape (list of dimension sizes) together with flattened
rational sample data; `torch` transcendental operations are abstracted as
parameters where they occur. -/

/-- A sample buffer: shape and flattened data. -/
structure Tensor where
  dims : List Nat
  data : List ℚ
  deriving DecidableEq

/-- A tensor is well formed when its data length matches its shape. -/
def Tensor.wfShape (t : Tensor) : Prop := t.data.length = t.dims.prod

/-- Model of `torch.squeeze()`: remove every axis of size 1. -/
def squeezeDims (dims : List Nat) : List Nat := dims.filter (fun d => d != 1)

/-- The channel-dimension normalization of `_process_audio_tensor`: rank-1
gains a leading channel axis; rank above 2 is squeezed, re-adding the
channel axis if squeezing collapses the shape to rank 1. -/
def normalizeDims (dims : List Nat) : List Nat :=
  if dims.length = 1 then 1 :: dims
  else if 2 < dims.length then
    if (squeezeDims dims).length = 1 then 1 :: squeezeDims dims
    else squeezeDims dims
  else dims

/-- Peak absolute amplitude `torch.max(torch.abs(t))` over the data. -/
def peakAmp (t : Tensor) : ℚ := t.data.foldr (fun q m => max |q| m) 0

/-- The distinct failure kinds of `_process_audio_tensor`: the three
`ValueError` messages, plus the `IndexError` that `shape[1]` raises when
normalization leaves a rank below 2. -/
inductive AudioFailure where
  | emptyAudioErr : AudioFailure
  | noContentErr : AudioFailure
  | silentAudioErr : AudioFailure
  | indexErr : AudioFailure
  deriving DecidableEq

/-- Model of `_process_audio_tensor(wav_tensor)`: reject element-empty buffers,
normalize the channel layout, reject a zero-length sample axis and silent
audio, and return the normalized buffer. -/
def processAudioTensor (t : Tensor) : Except AudioFailure Tensor :=
  if t.dims.prod = 0 then .error .emptyAudioErr
  else
    match (normalizeDims t.dims).get? 1 with
    | none => .error .indexErr
    | some n =>
      if n = 0 then .error .noContentErr
      else if peakAmp ⟨normalizeDims t.dims, t.data⟩ = 0 then .error .silentAudioErr
      else .ok ⟨normalizeDims t.dims, t.data⟩

/-- Decidable equality of `Except` results (for concrete evaluations). -/
instance {e a : Type} [DecidableEq e] [DecidableEq a] :
    DecidableEq (Except e a) := fun x y =>
  match x, y with
  | .error u, .error v =>
    if h : u = v then isTrue (by rw [h])
    else isFalse (fun hc => h (by injection hc))
  | .ok u, .ok v =>
    if h : u = v then isTrue (by rw [h])
    else isFalse (fun hc => h (by injection hc))
  | .error _, .ok _ => isFalse (fun hc => Except.noConfusion hc)
  | .ok _, .error _ => isFalse (fun hc => Except.noConfusion hc)

/-! ## Rounding helpers (Python `round(x, n)`) -/

/-- Round a rational to the nearest integer, ties to even. -/
def roundHalfEven (q : ℚ) : ℤ :=
  let f := ⌊q⌋
  let r := q - f
  if r < 1/2 then f
  else if 1/2 < r then f + 1
  else if f % 2 = 0 then f else f + 1

/-- Python `round(x, 1)`. -/
def round1 (q : ℚ) : ℚ := (roundHalfEven (q * 10) : ℚ) / 10

/-- Python `round(x, 2)`. -/
def round2 (q : ℚ) : ℚ := (roundHalfEven (q * 100) : ℚ) / 100

/-- Python `round(x, 4)`. -/
def round4 (q : ℚ) : ℚ := (roundHalfEven (q * 10000) : ℚ) / 10000

/-! ## Audio analysis and the controller WAV paths
(`analyze_audio` in `tts_service.py`, `tts_controller.py`)

The WAV encoder (`torchaudio.save`) is external, so the encoded bytes enter
the controller functions as a parameter; the square root and logarithm of
the analysis are likewise external float operations passed in as values. -/

/-- The analysis dictionary built by `analyze_audio` for a validated
buffer: keyed rounded metrics (`rmsLevel` and `dynRangeDb` abstract the
transcendental computations). -/
def analyze_audio_dict (sampleRate : ℚ) (t : Tensor) (rmsLevel dynRangeDb : ℚ) :
    List (String × ℚ) :=
  [("duration_seconds", round2 ((t.dims.getD 1 0 : ℚ) / sampleRate)),
   ("sample_rate", sampleRate),
   ("channels", (t.dims.getD 0 0 : ℚ)),
   ("samples", (t.dims.getD 1 0 : ℚ)),
   ("peak_amplitude", round4 (peakAmp t)),
   ("rms_level", round4 rmsLevel),
   ("dynamic_range_db", round1 dynRangeDb)]

/-- An HTTP-level failure carrying status code and detail message. -/
inductive ApiFailure where
  | httpEx : Nat → String → ApiFailure
  deriving DecidableEq

/-- The error raised by `synthesize_wav` when encoding yields zero bytes. -/
def encodingFailedErr : ApiFailure := .httpEx 500 "WAV encoding failed"

/-- An HTTP response carrying raw audio bytes. -/
structure AudioResponse where
  content : List Nat
  media_type : String
  deriving DecidableEq

/-- The `synthesize_wav` endpoint after encoding: reject zero-length WAV
bytes with a 500 encoding-failed error, otherwise return them. -/
def synthesize_wav_respond (wavBytes : List Nat) : Except ApiFailure AudioResponse :=
  if wavBytes.length = 0 then .error encodingFailedErr
  else .ok ⟨wavBytes, "audio/wav"⟩

/-- The structured result `_synthesize_internal` builds. -/
structure SynthInternalResult where
  audio_bytes : List Nat
  duration_seconds : ℚ
  sample_rate : ℚ
  generation_time : ℚ
  deriving DecidableEq

/-- Model of `_synthesize_internal`: build the result dictionary from the analysis;
a missing key raises a `KeyError` which the handler converts to a generic
500 synthesis-failure error.  No zero-length check is performed on the
bytes. -/
def synthesize_internal (analysis : List (String × ℚ)) (wavBytes : List Nat) :
    Except ApiFailure SynthInternalResult :=
  match analysis.lookup "duration_seconds" with
  | none => .error (.httpEx 500 "Synthesis failed: duration_seconds")
  | some d =>
    match analysis.lookup "sample_rate" with
    | none => .error (.httpEx 500 "Synthesis failed: sample_rate")
    | some sr =>
      match analysis.lookup "generation_time" with
      | none => .error (.httpEx 500 "Synthesis failed: generation_time")
      | some g => .ok ⟨wavBytes, d, sr, g⟩

/-- The OpenAI-compatible speech endpoint: return the internal synthesis
result bytes directly as a WAV response. -/
def openai_speech_respond (analysis : List (String × ℚ)) (wavBytes : List Nat) :
    Except ApiFailure AudioResponse :=
  match synthesize_internal analysis wavBytes with
  | .error e => .error e
  | .ok r => .ok ⟨r.audio_bytes, "audio/wav"⟩

/-! ## Performance aggregation (`performance_service.py`) -/

/-- The mutable `PerformanceMetrics` accumulator. -/
structure PerformanceMetrics where
  synthesis_count : Nat
  total_characters : Nat
  total_audio_duration : ℚ
  total_processing_time : ℚ
  start_time : ℚ
  deriving DecidableEq

/-- A freshly initialized metrics record (`start_time` is the current
time). -/
def initMetrics (now : ℚ) : PerformanceMetrics := ⟨0, 0, 0, 0, now⟩

/-- Model of `add_synthesis(chars, duration, processing_time)`. -/
def add_synthesis (m : PerformanceMetrics) (chars : Nat) (duration processingTime : ℚ) :
    PerformanceMetrics :=
  { m with
    synthesis_count := m.synthesis_count + 1
    total_characters := m.total_characters + chars
    total_audio_duration := m.total_audio_duration + duration
    total_processing_time := m.total_processing_time + processingTime }

/-- The snapshot dictionary returned by `get_stats`. -/
structure PerfStats where
  total_requests : Nat
  total_characters : Nat
  total_audio_duration : ℚ
  total_processing_time : ℚ
  uptime_seconds : ℚ
  avg_chars_per_second : ℚ
  efficiency_ratio_val : ℚ
  deriving DecidableEq

/-- Model of `get_stats()`: derive the rounded snapshot without mutating state; the
two throughput ratios fall back to 0 when no processing time has
accumulated. -/
def get_stats (now : ℚ) (m : PerformanceMetrics) : PerfStats :=
  ⟨m.synthesis_count,
   m.total_characters,
   round2 m.total_audio_duration,
   round2 m.total_processing_time,
   round2 (now - m.start_time),
   round2 (if 0 < m.total_processing_time
     then (m.total_characters : ℚ) / m.total_processing_time else 0),
   round2 (if 0 < m.total_processing_time
     then m.total_audio_duration / m.total_processing_time else 0)⟩

/-- Model of `reset_stats()`: replace the metrics with a fresh record (whose
`start_time` would be the current time) and then restore the saved
`start_time`. -/
def reset_stats (now : ℚ) (m : PerformanceMetrics) : PerformanceMetrics :=
  { initMetrics now with start_time := m.start_time }

/-! ## Specification predicates for the segmenter -/

/-- A character list with no Python whitespace at all. -/
def noWS (l : List Char) : Prop := ∀ c ∈ l, isPySpace c = false

/-- The first character, if any, is not whitespace. -/
def headOk : List Char → Bool
  | [] => true
  | c :: _ => !isPySpace c

/-- A chunk the word packer may emit: non-empty, trimmed at both ends, and
within the limit unless it is a single whitespace-free oversized word. -/
def goodChunk (maxLength : Nat) (c : List Char) : Prop :=
  c ≠ [] ∧ headOk c = true ∧ headOk c.reverse = true ∧
    (c.length ≤ maxLength ∨ noWS c)

/-- A chunk of the sentence packer before the word fallback: non-empty and
trimmed, with no length bound yet. -/
def edgeChunk (c : List Char) : Prop :=
  c ≠ [] ∧ headOk c = true ∧ headOk c.reverse = true

/-! ## Lemmas about the string primitives -/

lemma headOk_dropWhile (l : List Char) : headOk (l.dropWhile isPySpace) = true := by
  induction l with
  | nil => rfl
  | cons c cs ih =>
    by_cases h : isPySpace c
    · simpa [List.dropWhile_cons, h] using ih
    · simp [List.dropWhile_cons, h, headOk]

lemma dropWhile_eq_self_of_headOk {l : List Char} (h : headOk l = true) :
    l.dropWhile isPySpace = l := by
  cases l with
  | nil => rfl
  | cons c cs =>
    simp only [headOk, Bool.not_eq_true'] at h
    simp [List.dropWhile_cons, h]

lemma headOk_append {a : List Char} (b : List Char) (ha : a ≠ []) :
    headOk (a ++ b) = headOk a := by
  cases a with
  | nil => exact absurd rfl ha
  | cons c cs => rfl

lemma headOk_dropWhile_reverse {l : List Char} (h : headOk l.reverse = true) :
    headOk (l.dropWhile isPySpace).reverse = true := by
  induction l with
  | nil => rfl
  | cons c cs ih =>
    by_cases hc : isPySpace c
    · rw [List.dropWhile_cons, if_pos hc]
      cases hcs : cs with
      | nil => subst hcs; rfl
      | cons d ds =>
        subst hcs
        apply ih
        rw [List.reverse_cons] at h
        rwa [headOk_append [c] (by simp)] at h
    · rwa [List.dropWhile_cons, if_neg hc]

lemma pyStrip_eq_self {l : List Char} (h1 : headOk l = true)
    (h2 : headOk l.reverse = true) : pyStrip l = l := by
  unfold pyStrip
  rw [dropWhile_eq_self_of_headOk h1, dropWhile_eq_self_of_headOk h2,
    List.reverse_reverse]

lemma pyStrip_edges (l : List Char) :
    headOk (pyStrip l) = true ∧ headOk (pyStrip l).reverse = true := by
  unfold pyStrip
  constructor
  · exact headOk_dropWhile_reverse (by
      rw [List.reverse_reverse]; exact headOk_dropWhile l)
  · rw [List.reverse_reverse]
    exact headOk_dropWhile (l.dropWhile isPySpace).reverse

lemma pyStrip_idem (l : List Char) : pyStrip (pyStrip l) = pyStrip l :=
  pyStrip_eq_self (pyStrip_edges l).1 (pyStrip_edges l).2

lemma noWS_headOk {l : List Char} (h : noWS l) : headOk l = true := by
  cases l with
  | nil => rfl
  | cons c cs =>
    simp only [headOk, Bool.not_eq_true']
    exact h c (List.mem_cons_self c cs)

lemma noWS_reverse {l : List Char} (h : noWS l) : noWS l.reverse := by
  intro c hc
  exact h c (List.mem_reverse.mp hc)

lemma length_dropWhile_le (p : Char → Bool) (l : List Char) :
    (l.dropWhile p).length ≤ l.length := by
  induction l with
  | nil => simp
  | cons c cs ih =>
    by_cases h : p c
    · simp only [List.dropWhile_cons, if_pos h, List.length_cons]
      omega
    · simp [List.dropWhile_cons, h]

lemma pyStrip_length_le (l : List Char) : (pyStrip l).length ≤ l.length := by
  unfold pyStrip
  calc ((l.dropWhile isPySpace).reverse.dropWhile isPySpace).reverse.length
      = ((l.dropWhile isPySpace).reverse.dropWhile isPySpace).length := by
        rw [List.length_reverse]
    _ ≤ (l.dropWhile isPySpace).reverse.length := length_dropWhile_le _ _
    _ = (l.dropWhile isPySpace).length := by rw [List.length_reverse]
    _ ≤ l.length := length_dropWhile_le _ _

lemma pyStrip_space_cons {w : List Char} (h1 : headOk w = true)
    (h2 : headOk w.reverse = true) : pyStrip (' ' :: w) = w := by
  unfold pyStrip
  rw [show (' ' :: w).dropWhile isPySpace = w.dropWhile isPySpace from by
    simp [List.dropWhile_cons, isPySpace]]
  rw [dropWhile_eq_self_of_headOk h1, dropWhile_eq_self_of_headOk h2,
    List.reverse_reverse]

lemma headOk_reverse_append_space {a b : List Char} (hb : b ≠ [])
    (h2 : headOk b.reverse = true) : headOk (a ++ ' ' :: b).reverse = true := by
  rw [List.reverse_append, List.reverse_cons]
  rw [List.append_assoc]
  rwa [headOk_append ([' '] ++ a.reverse) (by simpa using hb)]

lemma pyStrip_append_space {a b : List Char} (ha : a ≠ []) (hb : b ≠ [])
    (h1 : headOk a = true) (h2 : headOk b.reverse = true) :
    pyStrip (a ++ ' ' :: b) = a ++ ' ' :: b := by
  apply pyStrip_eq_self
  · rw [headOk_append _ ha]; exact h1
  · exact headOk_reverse_append_space hb h2

lemma splitRuns_noWS : ∀ (l : List Char), ∀ g ∈ splitRuns l, noWS g := by
  intro l
  induction l with
  | nil => intro g hg; simp [splitRuns] at hg
  | cons c cs ih =>
    intro g hg
    by_cases hc : isPySpace c
    · rw [splitRuns, if_pos hc] at hg
      rcases List.mem_cons.mp hg with h | h
      · subst h; intro x hx; simp at hx
      · exact ih g h
    · rw [splitRuns, if_neg hc] at hg
      rcases hrec : splitRuns cs with _ | ⟨g0, gs⟩
      · rw [hrec] at hg
        rcases List.mem_cons.mp hg with h | h
        · subst h
          intro x hx
          rcases List.mem_singleton.mp hx with rfl
          simpa using hc
        · simp at h
      · rw [hrec] at hg
        rcases List.mem_cons.mp hg with h | h
        · subst h
          intro x hx
          rcases List.mem_cons.mp hx with rfl | hx
          · simpa using hc
          · exact ih g0 (by rw [hrec]; exact List.mem_cons_self g0 gs) x hx
        · exact ih g (by rw [hrec]; exact List.mem_cons_of_mem g0 h)

lemma pySplit_mem {l w : List Char} (hw : w ∈ pySplit l) : w ≠ [] ∧ noWS w := by
  unfold pySplit at hw
  rw [List.mem_filter] at hw
  refine ⟨by simpa using hw.2, splitRuns_noWS l w hw.1⟩

/-! ## The greedy packing invariants -/

lemma wordStep_inv {L : Nat} {st : List (List Char) × List Char} {w : List Char}
    (hch : ∀ c ∈ st.1, goodChunk L c) (hcur : st.2 = [] ∨ goodChunk L st.2)
    (hw : w ≠ []) (hwws : noWS w) :
    (∀ c ∈ (wordStep L st w).1, goodChunk L c) ∧
      ((wordStep L st w).2 = [] ∨ goodChunk L (wordStep L st w).2) := by
  have hwh : headOk w = true := noWS_headOk hwws
  have hwr : headOk w.reverse = true := noWS_headOk (noWS_reverse hwws)
  have hwchunk : goodChunk L w := ⟨hw, hwh, hwr, Or.inr hwws⟩
  unfold wordStep
  by_cases hcond : st.2 ≠ [] ∧ L < st.2.length + w.length + 1
  · rw [if_pos hcond]
    rcases hcur with hnil | hgood
    · exact absurd hnil hcond.1
    · refine ⟨?_, Or.inr hwchunk⟩
      intro c hc
      rcases List.mem_append.mp hc with h | h
      · exact hch c h
      · rcases List.mem_singleton.mp h with rfl
        rw [pyStrip_eq_self hgood.2.1 hgood.2.2.1]
        exact hgood
  · rw [if_neg hcond]
    refine ⟨hch, Or.inr ?_⟩
    rcases hcur with hnil | hgood
    · rw [hnil, List.nil_append, pyStrip_space_cons hwh hwr]
      exact hwchunk
    · have hfit : st.2.length + w.length + 1 ≤ L := by
        rcases not_and_or.mp hcond with h | h
        · exact absurd hgood.1 (by simpa using h)
        · omega
      rw [pyStrip_append_space hgood.1 hw hgood.2.1 hwr]
      refine ⟨by simp, ?_, ?_, Or.inl ?_⟩
      · rw [headOk_append _ hgood.1]; exact hgood.2.1
      · exact headOk_reverse_append_space hw hwr
      · simp only [List.length_append, List.length_cons]
        omega

lemma foldl_wordStep_inv (L : Nat) :
    ∀ (ws : List (List Char)) (st : List (List Char) × List Char),
    (∀ w ∈ ws, w ≠ [] ∧ noWS w) →
    (∀ c ∈ st.1, goodChunk L c) → (st.2 = [] ∨ goodChunk L st.2) →
    (∀ c ∈ (ws.foldl (wordStep L) st).1, goodChunk L c) ∧
      ((ws.foldl (wordStep L) st).2 = [] ∨ goodChunk L (ws.foldl (wordStep L) st).2) := by
  intro ws
  induction ws with
  | nil => intro st _ hch hcur; exact ⟨hch, hcur⟩
  | cons w ws ih =>
    intro st hws hch hcur
    have hw := hws w (List.mem_cons_self w ws)
    have hstep := wordStep_inv hch hcur hw.1 hw.2
    rw [List.foldl_cons]
    exact ih (wordStep L st w)
      (fun x hx => hws x (List.mem_cons_of_mem w hx)) hstep.1 hstep.2

lemma pyStrip_nil : pyStrip [] = [] := rfl

lemma finalize_good {L : Nat} {st : List (List Char) × List Char}
    (h1 : ∀ c ∈ st.1, goodChunk L c) (h2 : st.2 = [] ∨ goodChunk L st.2) :
    ∀ c ∈ (if pyStrip st.2 ≠ [] then st.1 ++ [pyStrip st.2] else st.1),
      goodChunk L c := by
  rcases h2 with hnil | hgood
  · rw [hnil, pyStrip_nil]
    simp only [ne_eq, not_true_eq_false, if_false]
    exact h1
  · rw [pyStrip_eq_self hgood.2.1 hgood.2.2.1, if_pos hgood.1]
    intro c hc
    rcases List.mem_append.mp hc with h | h
    · exact h1 c h
    · rcases List.mem_singleton.mp h with rfl
      exact hgood

lemma finalize_edge {st : List (List Char) × List Char}
    (h1 : ∀ c ∈ st.1, edgeChunk c) (h2 : st.2 = [] ∨ edgeChunk st.2) :
    ∀ c ∈ (if pyStrip st.2 ≠ [] then st.1 ++ [pyStrip st.2] else st.1),
      edgeChunk c := by
  rcases h2 with hnil | hgood
  · rw [hnil, pyStrip_nil]
    simp only [ne_eq, not_true_eq_false, if_false]
    exact h1
  · rw [pyStrip_eq_self hgood.2.1 hgood.2.2, if_pos hgood.1]
    intro c hc
    rcases List.mem_append.mp hc with h | h
    · exact h1 c h
    · rcases List.mem_singleton.mp h with rfl
      exact hgood

lemma splitByWords_spec (text : List Char) (L : Nat) :
    ∀ c ∈ splitByWords text L, goodChunk L c := by
  have hinv := foldl_wordStep_inv L (pySplit text) ([], [])
    (fun w hw => pySplit_mem hw) (by intro x hx; simp at hx) (Or.inl rfl)
  intro c hc
  exact finalize_good hinv.1 hinv.2 c hc

lemma sentStep_inv (L : Nat) {st : List (List Char) × List Char} {s : List Char}
    (hch : ∀ c ∈ st.1, edgeChunk c) (hcur : st.2 = [] ∨ edgeChunk st.2)
    (hs : headOk s = true ∧ headOk s.reverse = true) :
    (∀ c ∈ (sentStep L st s).1, edgeChunk c) ∧
      ((sentStep L st s).2 = [] ∨ edgeChunk (sentStep L st s).2) := by
  unfold sentStep
  by_cases hsnil : s = []
  · rw [if_pos hsnil]; exact ⟨hch, hcur⟩
  · rw [if_neg hsnil]
    have hschunk : edgeChunk s := ⟨hsnil, hs.1, hs.2⟩
    by_cases hcond : st.2 ≠ [] ∧ L < st.2.length + s.length + 1
    · rw [if_pos hcond]
      rcases hcur with hnil | hgood
      · exact absurd hnil hcond.1
      · refine ⟨?_, Or.inr hschunk⟩
        intro c hc
        rcases List.mem_append.mp hc with h | h
        · exact hch c h
        · rcases List.mem_singleton.mp h with rfl
          rw [pyStrip_eq_self hgood.2.1 hgood.2.2]
          exact hgood
    · rw [if_neg hcond]
      refine ⟨hch, Or.inr ?_⟩
      rcases hcur with hnil | hgood
      · rw [hnil, List.nil_append, pyStrip_space_cons hs.1 hs.2]
        exact hschunk
      · rw [pyStrip_append_space hgood.1 hsnil hgood.2.1 hs.2]
        exact ⟨by simp, by rw [headOk_append _ hgood.1]; exact hgood.2.1,
          headOk_reverse_append_space hsnil hs.2⟩

lemma foldl_sentStep_inv (L : Nat) :
    ∀ (ss : List (List Char)) (st : List (List Char) × List Char),
    (∀ s ∈ ss, headOk s = true ∧ headOk s.reverse = true) →
    (∀ c ∈ st.1, edgeChunk c) → (st.2 = [] ∨ edgeChunk st.2) →
    (∀ c ∈ (ss.foldl (sentStep L) st).1, edgeChunk c) ∧
      ((ss.foldl (sentStep L) st).2 = [] ∨ edgeChunk (ss.foldl (sentStep L) st).2) := by
  intro ss
  induction ss with
  | nil => intro st _ hch hcur; exact ⟨hch, hcur⟩
  | cons s ss ih =>
    intro st hss hch hcur
    have hstep := sentStep_inv L hch hcur (hss s (List.mem_cons_self s ss))
    rw [List.foldl_cons]
    exact ih (sentStep L st s)
      (fun x hx => hss x (List.mem_cons_of_mem s hx)) hstep.1 hstep.2

lemma rejoinPairs_edges :
    ∀ (xs : List (List Char)), ∀ s ∈ rejoinPairs xs,
      headOk s = true ∧ headOk s.reverse = true
  | [] => by intro s hs; simp [rejoinPairs] at hs
  | [t] => by intro s hs; simp [rejoinPairs] at hs
  | t :: s0 :: rest => by
    intro s hs
    rw [rejoinPairs] at hs
    rcases List.mem_cons.mp hs with h | h
    · subst h; exact pyStrip_edges _
    · exact rejoinPairs_edges rest s h

lemma splitBySentences_spec (text : List Char) (L : Nat) :
    ∀ c ∈ splitBySentences text L, goodChunk L c := by
  have hinv := foldl_sentStep_inv L (rejoinPairs (reSplitSent text)) ([], [])
    (rejoinPairs_edges _) (by intro x hx; simp at hx) (Or.inl rfl)
  have hall := finalize_edge hinv.1 hinv.2
  intro c hc
  have hc2 : c ∈ ((if pyStrip ((rejoinPairs (reSplitSent text)).foldl (sentStep L) ([], [])).2 ≠ []
      then ((rejoinPairs (reSplitSent text)).foldl (sentStep L) ([], [])).1
        ++ [pyStrip ((rejoinPairs (reSplitSent text)).foldl (sentStep L) ([], [])).2]
      else ((rejoinPairs (reSplitSent text)).foldl (sentStep L) ([], [])).1).map
        (fun chunk => if chunk.length ≤ L then [chunk]
          else splitByWords chunk L)).flatten := hc
  rw [List.mem_flatten] at hc2
  rcases hc2 with ⟨grp, hgrp, hcg⟩
  rcases List.mem_map.mp hgrp with ⟨ch, hch, rfl⟩
  have hedge := hall ch hch
  by_cases hlen : ch.length ≤ L
  · rw [if_pos hlen] at hcg
    rcases List.mem_singleton.mp hcg with rfl
    exact ⟨hedge.1, hedge.2.1, hedge.2.2, Or.inl hlen⟩
  · rw [if_neg hlen] at hcg
    exact splitByWords_spec ch L c hcg

lemma paraFold_inv (L : Nat) :
    ∀ (ps : List (List Char)) (acc : List (List Char)),
    (∀ c ∈ acc, pyStrip c = c ∧ (c.length ≤ L ∨ noWS c)) →
    ∀ c ∈ ps.foldl (fun acc para =>
        let para := pyStrip para
        if para = [] then acc
        else if para.length ≤ L then acc ++ [para]
        else acc ++ splitBySentences para L) acc,
      pyStrip c = c ∧ (c.length ≤ L ∨ noWS c) := by
  intro ps
  induction ps with
  | nil => intro acc hacc; exact hacc
  | cons p ps ih =>
    intro acc hacc
    rw [List.foldl_cons]
    apply ih
    intro c hc
    by_cases h0 : pyStrip p = []
    · simp only [h0, if_pos rfl] at hc
      exact hacc c hc
    · simp only [if_neg h0] at hc
      by_cases hlen : (pyStrip p).length ≤ L
      · rw [if_pos hlen] at hc
        rcases List.mem_append.mp hc with h | h
        · exact hacc c h
        · rcases List.mem_singleton.mp h with rfl
          exact ⟨pyStrip_idem p, Or.inl hlen⟩
      · rw [if_neg hlen] at hc
        rcases List.mem_append.mp hc with h | h
        · exact hacc c h
        · have := splitBySentences_spec (pyStrip p) L c h
          exact ⟨pyStrip_eq_self this.2.1 this.2.2.1, this.2.2.2⟩

lemma splitByParagraphs_spec (text : List Char) (L : Nat) :
    ∀ c ∈ splitByParagraphs text L,
      pyStrip c ≠ [] ∧ (c.length ≤ L ∨ noWS c) := by
  intro c hc
  have hc2 : c ∈ ((paraSplit text).foldl (fun acc para =>
      let para := pyStrip para
      if para = [] then acc
      else if para.length ≤ L then acc ++ [para]
      else acc ++ splitBySentences para L) []).filter
        (fun chunk => pyStrip chunk ≠ []) := hc
  rw [List.mem_filter] at hc2
  have hmem := paraFold_inv L (paraSplit text) [] (by intro x hx; simp at hx) c hc2.1
  refine ⟨?_, hmem.2⟩
  have hne := hc2.2
  simp only [ne_eq, decide_not, Bool.not_eq_true', decide_eq_false_iff_not] at hne
  exact hne

lemma fixedSlices_len :
    ∀ (fuel : Nat) (l : List Char) (L : Nat), ∀ s ∈ fixedSlices fuel l L,
      s.length ≤ L := by
  intro fuel
  induction fuel with
  | zero => intro l L s hs; simp [fixedSlices] at hs
  | succ f ih =>
    intro l L s hs
    rw [fixedSlices] at hs
    by_cases h0 : l = []
    · rw [if_pos h0] at hs; simp at hs
    · rw [if_neg h0] at hs
      rcases List.mem_cons.mp hs with h | h
      · subst h
        rw [List.length_take]
        exact Nat.min_le_left L l.length
      · exact ih (l.drop L) L s h

lemma fixedFold_inv (L : Nat) :
    ∀ (ss : List (List Char)) (acc : List (List Char)),
    (∀ c ∈ acc, pyStrip c ≠ [] ∧ c.length ≤ L) →
    (∀ s ∈ ss, s.length ≤ L) →
    ∀ c ∈ ss.foldl (fun acc chunk =>
        if pyStrip chunk ≠ [] then acc ++ [pyStrip chunk] else acc) acc,
      pyStrip c ≠ [] ∧ c.length ≤ L := by
  intro ss
  induction ss with
  | nil => intro acc hacc _; exact hacc
  | cons s ss ih =>
    intro acc hacc hss
    rw [List.foldl_cons]
    apply ih
    · intro c hc
      by_cases h0 : pyStrip s ≠ []
      · rw [if_pos h0] at hc
        rcases List.mem_append.mp hc with h | h
        · exact hacc c h
        · rcases List.mem_singleton.mp h with rfl
          refine ⟨by rw [pyStrip_idem]; exact h0, ?_⟩
          exact le_trans (pyStrip_length_le s) (hss s (List.mem_cons_self s ss))
      · rw [if_neg h0] at hc
        exact hacc c hc
    · intro x hx
      exact hss x (List.mem_cons_of_mem s hx)

lemma splitByFixedSize_spec (text : List Char) (L : Nat) :
    ∀ c ∈ splitByFixedSize text L, pyStrip c ≠ [] ∧ c.length ≤ L := by
  intro c hc
  exact fixedFold_inv L (fixedSlices text.length text L) []
    (by intro x hx; simp at hx) (fixedSlices_len text.length text L) c hc

lemma getStreamingSettings_chunk_size {L : Nat} (hL : 0 < L)
    (strategy quality : Option (List Char)) :
    (getStreamingSettings (some L) strategy quality).chunk_size = L := by
  unfold getStreamingSettings
  simp only [if_neg (Nat.pos_iff_ne_zero.mp hL)]

lemma dispatch_spec (text2 : List Char) (L : Nat) (strat : List Char)
    (hstrip : pyStrip text2 = text2) (hne : text2 ≠ []) :
    ∀ c ∈ (if text2.length ≤ L then [text2]
      else if strat = "paragraph".toList then splitByParagraphs text2 L
      else if strat = "sentence".toList then splitBySentences text2 L
      else if strat = "word".toList then splitByWords text2 L
      else if strat = "fixed".toList then splitByFixedSize text2 L
      else splitBySentences text2 L),
      pyStrip c ≠ [] ∧ (c.length ≤ L ∨ noWS c) := by
  intro c hc
  split_ifs at hc
  · rcases List.mem_singleton.mp hc with rfl
    exact ⟨by rw [hstrip]; exact hne, Or.inl (by assumption)⟩
  · exact splitByParagraphs_spec text2 L c hc
  · have h := splitBySentences_spec text2 L c hc
    exact ⟨by rw [pyStrip_eq_self h.2.1 h.2.2.1]; exact h.1, h.2.2.2⟩
  · have h := splitByWords_spec text2 L c hc
    exact ⟨by rw [pyStrip_eq_self h.2.1 h.2.2.1]; exact h.1, h.2.2.2⟩
  · have h := splitByFixedSize_spec text2 L c hc
    exact ⟨h.1, Or.inl h.2⟩
  · have h := splitBySentences_spec text2 L c hc
    exact ⟨by rw [pyStrip_eq_self h.2.1 h.2.2.1]; exact h.1, h.2.2.2⟩

/-- Claim C2: for every text and configuration with a positive maximum
length, under any strategy and quality, every returned chunk is non-empty
after trimming, and is within the maximum length unless it is a single
indivisible whitespace-free word (which may exceed the limit). -/
theorem C2_chunk_length_bounds (text : List Char) (L : Nat)
    (strategy quality : Option (List Char)) (hL : 0 < L) :
    ∀ c ∈ splitTextForStreaming text (some L) strategy quality,
      pyStrip c ≠ [] ∧ (c.length ≤ L ∨ noWS c) := by
  intro c hc
  unfold splitTextForStreaming at hc
  by_cases h0 : pyStrip text = []
  · rw [if_pos h0] at hc
    simp at hc
  · rw [if_neg h0] at hc
    have hc2 : c ∈ (if (pyStrip text).length ≤
          (getStreamingSettings (some L) strategy quality).chunk_size
        then [pyStrip text]
        else if (getStreamingSettings (some L) strategy quality).strategy
            = "paragraph".toList
        then splitByParagraphs (pyStrip text)
          (getStreamingSettings (some L) strategy quality).chunk_size
        else if (getStreamingSettings (some L) strategy quality).strategy
            = "sentence".toList
        then splitBySentences (pyStrip text)
          (getStreamingSettings (some L) strategy quality).chunk_size
        else if (getStreamingSettings (some L) strategy quality).strategy
            = "word".toList
        then splitByWords (pyStrip text)
          (getStreamingSettings (some L) strategy quality).chunk_size
        else if (getStreamingSettings (some L) strategy quality).strategy
            = "fixed".toList
        then splitByFixedSize (pyStrip text)
          (getStreamingSettings (some L) strategy quality).chunk_size
        else splitBySentences (pyStrip text)
          (getStreamingSettings (some L) strategy quality).chunk_size) := hc
    rw [getStreamingSettings_chunk_size hL] at hc2
    exact dispatch_spec (pyStrip text) L _ (pyStrip_idem text) h0 c hc2

/-- Witness for C2 at a concrete input. -/
theorem C2_chunk_length_bounds_witness :
    0 < 4 ∧ ∀ c ∈ splitTextForStreaming "ab cd ef".toList (some 4)
        (some "word".toList) none,
      pyStrip c ≠ [] ∧ (c.length ≤ 4 ∨ noWS c) :=
  ⟨by decide, C2_chunk_length_bounds "ab cd ef".toList 4
    (some "word".toList) none (by decide)⟩

/-- Claim C1 (code bug evaluation): under the sentence strategy the rejoin
loop never emits the text after the last sentence terminator, so
`"Hello. World"` at maximum length 5 chunks to just `["Hello."]` and the
space-joined, whitespace-normalized chunks do not reproduce the normalized
input. -/
theorem C1_sentence_strategy_drops_text :
    splitTextForStreaming "Hello. World".toList (some 5)
        (some "sentence".toList) none = ["Hello.".toList] ∧
    normalizeWS (List.intercalate [' '] (splitTextForStreaming
        "Hello. World".toList (some 5) (some "sentence".toList) none))
      ≠ normalizeWS "Hello. World".toList := by
  decide

/-- Claim C10 counterexample: the empty string is not one of the three
quality names, yet it is not echoed back: Python `or` treats it as absent
and substitutes `"balanced"`. -/
theorem C10_empty_quality_counterexample :
    "".toList ∉ [ "fast".toList, "balanced".toList, "high".toList ] ∧
    getStreamingSettings none none (some "".toList)
      = ⟨200, "sentence".toList, "balanced".toList⟩ ∧
    (getStreamingSettings none none (some "".toList)).quality ≠ "".toList := by
  decide

/-- Claim C10 (amended): every non-empty quality string outside the three
presets silently selects the balanced defaults (chunk size 200, sentence
strategy) while echoing the unrecognized string back; the empty string is
treated as unspecified and replaced by `"balanced"`. -/
theorem C10_unknown_quality_balanced (q : List Char) (hne : q ≠ [])
    (h1 : q ≠ "fast".toList) (h2 : q ≠ "balanced".toList)
    (h3 : q ≠ "high".toList) :
    getStreamingSettings none none (some q) = ⟨200, "sentence".toList, q⟩ := by
  unfold getStreamingSettings
  simp only [if_neg hne, if_neg h1, if_neg h2, if_neg h3]

/-- Witness for the amended C10 at a concrete unknown quality. -/
theorem C10_unknown_quality_balanced_witness :
    "turbo".toList ≠ [] ∧
    getStreamingSettings none none (some "turbo".toList)
      = ⟨200, "sentence".toList, "turbo".toList⟩ :=
  ⟨by decide, C10_unknown_quality_balanced "turbo".toList (by decide)
    (by decide) (by decide) (by decide)⟩

/-- Claim C3: for a catalog preset, every resolved field is the caller
override when set and the preset value otherwise; for a name outside the
catalog, preparation fails with the unknown-preset error (no silent
fallback). -/
theorem C3_parameter_resolution (request : TTSRequest) (timeStr : List Char) :
    (∀ p, VOICE_PRESETS.lookup request.voice_preset = some p →
      prepare_synthesis_parameters request timeStr = .ok
        (⟨request.temperature.getD p.temperature,
          request.top_p.getD p.top_p,
          request.min_p.getD p.min_p,
          request.repetition_penalty.getD p.repetition_penalty,
          request.exaggeration.getD p.exaggeration,
          request.cfg_weight.getD p.cfg_weight⟩,
         (md5hexdigest (utf8Encode (request.text.take 50 ++ timeStr))).take 6))
    ∧ (VOICE_PRESETS.lookup request.voice_preset = none →
        prepare_synthesis_parameters request timeStr
          = .error ("Voice preset " ++ request.voice_preset ++ " not found")) := by
  constructor
  · intro p hp
    unfold prepare_synthesis_parameters get_voice_preset
    rw [hp]
  · intro hp
    unfold prepare_synthesis_parameters get_voice_preset
    rw [hp]

/-- Witness for C3: the `masculine` preset with a temperature override. -/
theorem C3_parameter_resolution_witness :
    prepare_synthesis_parameters
        ⟨"hello".toList, "masculine", none, some (9/10), none, none, none, none, none⟩
        "1712345678.9".toList
      = .ok (⟨9/10, 6/10, 3/100, 115/100, 3/10, 35/100⟩,
        (md5hexdigest (utf8Encode (("hello".toList).take 50
          ++ "1712345678.9".toList))).take 6) :=
  (C3_parameter_resolution
      ⟨"hello".toList, "masculine", none, some (9/10), none, none, none, none, none⟩
      "1712345678.9".toList).1
    ⟨2/10, 6/10, 3/100, 115/100, 3/10, 35/100,
      "Strong masculine voice with controlled characteristics",
      "Professional podcasts, tech content, authoritative narration",
      "confident"⟩ rfl

/-- Helper: the value of the tie-free half-even rounding when the argument
lies in the lower half of an integer step. -/
lemma roundHalfEven_of_lt_half {q : ℚ} (n : ℤ) (h1 : (n : ℚ) ≤ q)
    (h2 : q < n + 1/2) : roundHalfEven q = n := by
  have hf : ⌊q⌋ = n := Int.floor_eq_iff.mpr ⟨h1, by linarith⟩
  unfold roundHalfEven
  rw [hf, if_pos (by linarith)]

/-- Helper: `round2` through an explicit scaled bound. -/
lemma round2_eq (q : ℚ) (n : ℤ) (h1 : (n : ℚ) ≤ q * 100)
    (h2 : q * 100 < n + 1/2) : round2 q = (n : ℚ) / 100 := by
  unfold round2
  rw [roundHalfEven_of_lt_half n h1 h2]

/-- Claim C7 counterexample: the snapshot ratios are rounded to two decimal
places, so after recording one character, one audio second and three
processing seconds the reported efficiency ratio is 0.33, not the exact
quotient 1/3 of the running totals. -/
theorem C7_rounding_counterexample :
    (get_stats 0 (add_synthesis (initMetrics 0) 1 1 3)).efficiency_ratio_val
      = 33/100 ∧
    (33/100 : ℚ) ≠ (add_synthesis (initMetrics 0) 1 1 3).total_audio_duration
      / (add_synthesis (initMetrics 0) 1 1 3).total_processing_time := by
  constructor
  · show round2 (if 0 < ((0:ℚ) + 3)
      then ((0:ℚ) + 1) / ((0:ℚ) + 3) else 0) = 33/100
    rw [if_pos (by norm_num), show ((0:ℚ) + 1) / ((0:ℚ) + 3) = 1/3 by norm_num,
      round2_eq (1/3) 33 (by norm_num) (by norm_num)]
    norm_num
  · show (33/100 : ℚ) ≠ ((0:ℚ) + 1) / ((0:ℚ) + 3)
    norm_num

/-- Claim C7 (amended): the concrete scenario holds exactly (2.0 and 50.0),
and in general both snapshot ratios are the quotient of the running totals
rounded to two decimal places, and are 0 when total processing time is 0. -/
theorem C7_throughput_stats (now t0 : ℚ) :
    ((get_stats now (add_synthesis (add_synthesis (initMetrics t0) 100 5 2)
        50 1 1)).efficiency_ratio_val = 2 ∧
     (get_stats now (add_synthesis (add_synthesis (initMetrics t0) 100 5 2)
        50 1 1)).avg_chars_per_second = 50) ∧
    (∀ m : PerformanceMetrics, m.total_processing_time = 0 →
      (get_stats now m).efficiency_ratio_val = 0 ∧
      (get_stats now m).avg_chars_per_second = 0) ∧
    (∀ m : PerformanceMetrics, 0 < m.total_processing_time →
      (get_stats now m).efficiency_ratio_val
        = round2 (m.total_audio_duration / m.total_processing_time) ∧
      (get_stats now m).avg_chars_per_second
        = round2 ((m.total_characters : ℚ) / m.total_processing_time)) := by
  refine ⟨⟨?_, ?_⟩, ?_, ?_⟩
  · show round2 (if 0 < (((0:ℚ) + 2) + 1)
      then (((0:ℚ) + 5) + 1) / (((0:ℚ) + 2) + 1) else 0) = 2
    rw [if_pos (by norm_num),
      show (((0:ℚ) + 5) + 1) / (((0:ℚ) + 2) + 1) = 2 by norm_num,
      round2_eq 2 200 (by norm_num) (by norm_num)]
    norm_num
  · show round2 (if 0 < (((0:ℚ) + 2) + 1)
      then ((((0:Nat) + 100 + 50 : Nat)) : ℚ) / (((0:ℚ) + 2) + 1) else 0) = 50
    rw [if_pos (by norm_num),
      show ((((0:Nat) + 100 + 50 : Nat)) : ℚ) / (((0:ℚ) + 2) + 1) = 50 by norm_num,
      round2_eq 50 5000 (by norm_num) (by norm_num)]
    norm_num
  · intro m hm
    constructor
    · show round2 (if 0 < m.total_processing_time
        then m.total_audio_duration / m.total_processing_time else 0) = 0
      rw [hm, if_neg (lt_irrefl 0)]
      rw [round2_eq 0 0 (by norm_num) (by norm_num)]
      norm_num
    · show round2 (if 0 < m.total_processing_time
        then (m.total_characters : ℚ) / m.total_processing_time else 0) = 0
      rw [hm, if_neg (lt_irrefl 0)]
      rw [round2_eq 0 0 (by norm_num) (by norm_num)]
      norm_num
  · intro m hm
    constructor
    · show round2 (if 0 < m.total_processing_time
        then m.total_audio_duration / m.total_processing_time else 0)
        = round2 (m.total_audio_duration / m.total_processing_time)
      rw [if_pos hm]
    · show round2 (if 0 < m.total_processing_time
        then (m.total_characters : ℚ) / m.total_processing_time else 0)
        = round2 ((m.total_characters : ℚ) / m.total_processing_time)
      rw [if_pos hm]

/-- Witness for the amended C7 at concrete metric states. -/
theorem C7_throughput_stats_witness :
    (get_stats 0 (add_synthesis (add_synthesis (initMetrics 0) 100 5 2)
        50 1 1)).efficiency_ratio_val = 2 ∧
    (get_stats 0 (initMetrics 0)).efficiency_ratio_val = 0 ∧
    (get_stats 0 ⟨1, 10, 5, 2, 0⟩).efficiency_ratio_val
      = round2 ((PerformanceMetrics.mk 1 10 5 2 0).total_audio_duration
          / (PerformanceMetrics.mk 1 10 5 2 0).total_processing_time) :=
  ⟨(C7_throughput_stats 0 0).1.1,
   ((C7_throughput_stats 0 0).2.1 (initMetrics 0) rfl).1,
   ((C7_throughput_stats 0 0).2.2 ⟨1, 10, 5, 2, 0⟩
     (by norm_num)).1⟩

/-- Claim C8: resetting the metrics zeroes the count and the three running
totals while preserving the start time, so the uptime reported afterwards
is unchanged. -/
theorem C8_reset_preserves_start_time (now now2 : ℚ) (m : PerformanceMetrics) :
    (reset_stats now m).synthesis_count = 0 ∧
    (reset_stats now m).total_characters = 0 ∧
    (reset_stats now m).total_audio_duration = 0 ∧
    (reset_stats now m).total_processing_time = 0 ∧
    (reset_stats now m).start_time = m.start_time ∧
    (get_stats now2 (reset_stats now m)).uptime_seconds
      = (get_stats now2 m).uptime_seconds :=
  ⟨rfl, rfl, rfl, rfl, rfl, rfl⟩

/-! ## Lemmas for the request identifier (C9) -/

lemma md5digest_length (msg : List Nat) : (md5digest msg).length = 16 := by
  unfold md5digest
  simp [le32]

lemma byteHex_length (b : Nat) : (byteHex b).length = 2 := rfl

lemma flatten_map_byteHex_length :
    ∀ (l : List Nat), ((l.map byteHex).flatten).length = 2 * l.length := by
  intro l
  induction l with
  | nil => rfl
  | cons b bs ih =>
    simp only [List.map_cons, List.flatten_cons, List.length_append,
      byteHex_length, ih, List.length_cons]
    omega

lemma md5hexdigest_length (msg : List Nat) : (md5hexdigest msg).length = 32 := by
  unfold md5hexdigest
  rw [flatten_map_byteHex_length, md5digest_length]

lemma hexTable_getD_mem (n : Nat) : hexTable.getD n '0' ∈ hexTable := by
  by_cases h : n < hexTable.length
  · rw [List.getD_eq_getElem hexTable '0' h]
    exact List.getElem_mem h
  · rw [List.getD_eq_default hexTable '0' (Nat.le_of_not_lt h)]
    decide

lemma md5hexdigest_mem {msg : List Nat} {c : Char}
    (hc : c ∈ md5hexdigest msg) : c ∈ hexTable := by
  unfold md5hexdigest at hc
  rw [List.mem_flatten] at hc
  rcases hc with ⟨grp, hgrp, hcg⟩
  rcases List.mem_map.mp hgrp with ⟨b, _, rfl⟩
  rcases List.mem_cons.mp hcg with rfl | hcg2
  · exact hexTable_getD_mem _
  · rcases List.mem_singleton.mp hcg2 with rfl
    exact hexTable_getD_mem _

/-- Claim C9: for every request whose preset is in the catalog, parameter
preparation succeeds and the produced request identifier is exactly 6
characters of lowercase hexadecimal (the first 6 characters of an MD5 hex
digest of the first 50 text characters concatenated with the time). -/
theorem C9_request_id_format (request : TTSRequest) (timeStr : List Char)
    (p : VoicePreset) (hp : VOICE_PRESETS.lookup request.voice_preset = some p) :
    ∃ params rid,
      prepare_synthesis_parameters request timeStr = .ok (params, rid) ∧
      rid = (md5hexdigest (utf8Encode (request.text.take 50 ++ timeStr))).take 6 ∧
      rid.length = 6 ∧ ∀ c ∈ rid, c ∈ hexTable := by
  refine ⟨⟨request.temperature.getD p.temperature,
      request.top_p.getD p.top_p,
      request.min_p.getD p.min_p,
      request.repetition_penalty.getD p.repetition_penalty,
      request.exaggeration.getD p.exaggeration,
      request.cfg_weight.getD p.cfg_weight⟩,
    (md5hexdigest (utf8Encode (request.text.take 50 ++ timeStr))).take 6,
    ?_, rfl, ?_, ?_⟩
  · unfold prepare_synthesis_parameters get_voice_preset
    rw [hp]
  · rw [List.length_take, md5hexdigest_length]
    decide
  · intro c hc
    exact md5hexdigest_mem (List.take_subset 6 _ hc)

/-- Witness for C9 with the default preset and concrete text and time. -/
theorem C9_request_id_format_witness :
    VOICE_PRESETS.lookup "default" = some ⟨8/10, 1, 5/100, 12/10, 5/10, 5/10,
      "Balanced default voice with natural characteristics",
      "General purpose, conversational content", "neutral"⟩ ∧
    ∃ params rid,
      prepare_synthesis_parameters
          ⟨"abc".toList, "default", none, none, none, none, none, none, none⟩
          "42.0".toList = .ok (params, rid) ∧
      rid = (md5hexdigest (utf8Encode (("abc".toList).take 50
        ++ "42.0".toList))).take 6 ∧
      rid.length = 6 ∧ ∀ c ∈ rid, c ∈ hexTable :=
  ⟨rfl, C9_request_id_format
    ⟨"abc".toList, "default", none, none, none, none, none, none, none⟩
    "42.0".toList
    ⟨8/10, 1, 5/100, 12/10, 5/10, 5/10,
      "Balanced default voice with natural characteristics",
      "General purpose, conversational content", "neutral"⟩ rfl⟩

/-! ## Lemmas for audio validation (C4, C5) -/

lemma squeezeDims_prod (l : List Nat) : (squeezeDims l).prod = l.prod := by
  induction l with
  | nil => rfl
  | cons c cs ih =>
    by_cases h : c = 1
    · subst h
      simp only [squeezeDims, List.filter_cons] at *
      simp only [bne_self_eq_false, Bool.false_eq_true, if_false, ih,
        List.prod_cons, one_mul]
    · simp only [squeezeDims, List.filter_cons] at *
      rw [if_pos (by simpa using h)]
      rw [List.prod_cons, List.prod_cons, ih]

lemma normalizeDims_prod (d : List Nat) : (normalizeDims d).prod = d.prod := by
  unfold normalizeDims
  split_ifs
  · rw [List.prod_cons, one_mul]
  · rw [List.prod_cons, one_mul, squeezeDims_prod]
  · rw [squeezeDims_prod]
  · rfl

lemma mem_pos_of_prod {d : List Nat} (h : d.prod ≠ 0) :
    ∀ x ∈ d, 0 < x := by
  intro x hx
  rcases Nat.eq_zero_or_pos x with rfl | hpos
  · exact absurd (List.prod_eq_zero hx) h
  · exact hpos

lemma peakList_nonneg :
    ∀ (l : List ℚ), 0 ≤ l.foldr (fun q m => max |q| m) 0 := by
  intro l
  induction l with
  | nil => exact le_refl 0
  | cons q qs ih => exact le_trans ih (le_max_right _ _)

lemma peakAmp_nonneg (t : Tensor) : 0 ≤ peakAmp t := peakList_nonneg t.data

lemma length_ge_two_of_get? {d : List Nat} {n : Nat}
    (hg : d.get? 1 = some n) : 2 ≤ d.length := by
  by_contra hcon
  push_neg at hcon
  rw [List.get?_eq_none.mpr (by omega)] at hg
  cases hg

/-- Claim C4 (amended): `EmptyAudio` fires exactly on element-empty
buffers; `NoContent` fires exactly when the normalized sample axis exists
with length 0 while the buffer is non-empty (which never happens, as a
zero-length axis forces zero elements); `SilentAudio` fires exactly on
non-empty buffers whose normalized shape still has a sample axis and whose
peak amplitude is exactly zero; buffers whose normalization drops below
rank 2 fail with an index error instead. -/
theorem C4_validation_error_conditions (t : Tensor) :
    (processAudioTensor t = .error .emptyAudioErr ↔ t.dims.prod = 0) ∧
    (processAudioTensor t = .error .noContentErr ↔
      ((normalizeDims t.dims).get? 1 = some 0 ∧ t.dims.prod ≠ 0)) ∧
    (processAudioTensor t = .error .silentAudioErr ↔
      (t.dims.prod ≠ 0 ∧ 2 ≤ (normalizeDims t.dims).length ∧ peakAmp t = 0)) ∧
    (processAudioTensor t = .error .indexErr ↔
      (t.dims.prod ≠ 0 ∧ (normalizeDims t.dims).length < 2)) := by
  by_cases hp : t.dims.prod = 0
  · have he : processAudioTensor t = .error .emptyAudioErr := by
      unfold processAudioTensor
      rw [if_pos hp]
    rw [he]
    exact ⟨by simp [hp], by simp [hp], by simp [hp], by simp [hp]⟩
  · have hprodnorm : (normalizeDims t.dims).prod ≠ 0 := by
      rw [normalizeDims_prod]; exact hp
    cases hg : (normalizeDims t.dims).get? 1 with
    | none =>
      have hlen : (normalizeDims t.dims).length ≤ 1 := List.get?_eq_none.mp hg
      have he : processAudioTensor t = .error .indexErr := by
        unfold processAudioTensor
        rw [if_neg hp, hg]
      rw [he]
      refine ⟨by simp [hp], by simp, ?_, ?_⟩
      · constructor
        · intro h; cases h
        · rintro ⟨_, h2, _⟩; exact absurd h2 (by omega)
      · constructor
        · intro _; exact ⟨hp, by omega⟩
        · intro _; rfl
    | some n =>
      have hn : n ≠ 0 := by
        have := mem_pos_of_prod hprodnorm n (List.get?_mem hg)
        omega
      have hlen2 : 2 ≤ (normalizeDims t.dims).length := length_ge_two_of_get? hg
      have he : processAudioTensor t =
          (if n = 0 then Except.error AudioFailure.noContentErr
           else if peakAmp ⟨normalizeDims t.dims, t.data⟩ = 0
           then Except.error AudioFailure.silentAudioErr
           else Except.ok ⟨normalizeDims t.dims, t.data⟩) := by
        unfold processAudioTensor
        rw [if_neg hp, hg]
      rw [he, if_neg hn]
      by_cases hpk : peakAmp (⟨normalizeDims t.dims, t.data⟩ : Tensor) = 0
      · rw [if_pos hpk]
        have hpk2 : peakAmp t = 0 := hpk
        refine ⟨by simp [hp], by simp [hn, Ne.symm hn], ?_, ?_⟩
        · constructor
          · intro _; exact ⟨hp, hlen2, hpk2⟩
          · intro _; rfl
        · constructor
          · intro h; cases h
          · rintro ⟨_, h2⟩; exact absurd h2 (by omega)
      · rw [if_neg hpk]
        have hpk2 : ¬ peakAmp t = 0 := hpk
        refine ⟨by simp [hp], by simp [hn, Ne.symm hn], ?_, ?_⟩
        · constructor
          · intro h; cases h
          · rintro ⟨_, _, h3⟩; exact (hpk2 h3).elim
        · constructor
          · intro h; cases h
          · rintro ⟨_, h2⟩; exact absurd h2 (by omega)

/-- Claim C4 counterexample: the buffer of shape `[1, 1, 1]` holding the
single sample 0 is non-empty with peak amplitude exactly zero, yet
validation fails with the index error (squeezing collapses the shape to
rank 0), not with `SilentAudio` — refuting the claimed biconditional. -/
theorem C4_silent_audio_counterexample :
    processAudioTensor ⟨[1, 1, 1], [0]⟩ = .error .indexErr ∧
    ¬ (processAudioTensor ⟨[1, 1, 1], [0]⟩ = .error .silentAudioErr ↔
      ((⟨[1, 1, 1], [0]⟩ : Tensor).dims.prod ≠ 0 ∧
        peakAmp ⟨[1, 1, 1], [0]⟩ = 0)) := by
  decide

/-- Witness for C4 at a concrete buffer. -/
theorem C4_validation_error_conditions_witness :
    processAudioTensor ⟨[0, 5], []⟩ = .error .emptyAudioErr ↔
      (Tensor.mk [0, 5] []).dims.prod = 0 :=
  (C4_validation_error_conditions ⟨[0, 5], []⟩).1

/-- Claim C5 counterexample: the rank-3 buffer of shape `[2, 3, 4]` has no
size-1 axis, so squeezing leaves it untouched and validation succeeds with
a 3-dimensional buffer — refuting the claim that every validated buffer has
exactly 2 dimensions. -/
theorem C5_rank3_counterexample :
    processAudioTensor ⟨[2, 3, 4], List.replicate 24 1⟩
      = .ok ⟨[2, 3, 4], List.replicate 24 1⟩ ∧
    (Tensor.mk [2, 3, 4] (List.replicate 24 1)).dims.length ≠ 2 := by
  decide

/-- Claim C5 (amended): a buffer accepted by validation keeps its data, has
the normalized shape with rank at least 2 (exactly 2 unless more than two
axes exceed size 1), all axes positive (so channels and samples are at
least 1), strictly positive peak amplitude, a rank-1 input gains a leading
channel axis, and a rank-above-2 input is squeezed with the channel axis
re-added when squeezing collapses it to rank 1. -/
theorem C5_validated_shape (t t2 : Tensor)
    (h : processAudioTensor t = .ok t2) :
    t2.data = t.data ∧
    t2.dims = normalizeDims t.dims ∧
    2 ≤ t2.dims.length ∧
    (∀ n ∈ t2.dims, 0 < n) ∧
    0 < peakAmp t2 ∧
    (t.dims.length = 1 → t2.dims = 1 :: t.dims) ∧
    (2 < t.dims.length → t2.dims =
      (if (squeezeDims t.dims).length = 1 then 1 :: squeezeDims t.dims
       else squeezeDims t.dims)) ∧
    (t2.dims.length = 2 ∨ 3 ≤ (squeezeDims t.dims).length) := by
  unfold processAudioTensor at h
  by_cases hp : t.dims.prod = 0
  · rw [if_pos hp] at h
    cases h
  · rw [if_neg hp] at h
    have hprodnorm : (normalizeDims t.dims).prod ≠ 0 := by
      rw [normalizeDims_prod]; exact hp
    cases hg : (normalizeDims t.dims).get? 1 with
    | none =>
      rw [hg] at h
      cases h
    | some n =>
      rw [hg] at h
      have h2 : (if n = 0 then Except.error AudioFailure.noContentErr
          else if peakAmp (⟨normalizeDims t.dims, t.data⟩ : Tensor) = 0
          then Except.error AudioFailure.silentAudioErr
          else Except.ok ⟨normalizeDims t.dims, t.data⟩) = Except.ok t2 := h
      by_cases hn : n = 0
      · rw [if_pos hn] at h2
        cases h2
      · rw [if_neg hn] at h2
        by_cases hpk : peakAmp (⟨normalizeDims t.dims, t.data⟩ : Tensor) = 0
        · rw [if_pos hpk] at h2
          cases h2
        · rw [if_neg hpk] at h2
          have ht2 : t2 = ⟨normalizeDims t.dims, t.data⟩ := by
            injection h2 with h3
            exact h3.symm
          subst ht2
          have hlen2 : 2 ≤ (normalizeDims t.dims).length :=
            length_ge_two_of_get? hg
          refine ⟨rfl, rfl, hlen2, ?_, ?_, ?_, ?_, ?_⟩
          · intro x hx
            exact mem_pos_of_prod hprodnorm x hx
          · exact lt_of_le_of_ne (peakAmp_nonneg _) (Ne.symm hpk)
          · intro h1
            show normalizeDims t.dims = 1 :: t.dims
            unfold normalizeDims
            rw [if_pos h1]
          · intro h3
            show normalizeDims t.dims =
              (if (squeezeDims t.dims).length = 1 then 1 :: squeezeDims t.dims
               else squeezeDims t.dims)
            unfold normalizeDims
            rw [if_neg (by omega), if_pos h3]
          · by_cases hk1 : t.dims.length = 1
            · left
              show (normalizeDims t.dims).length = 2
              unfold normalizeDims
              rw [if_pos hk1]
              simp [hk1]
            · by_cases hk2 : 2 < t.dims.length
              · by_cases hs1 : (squeezeDims t.dims).length = 1
                · left
                  show (normalizeDims t.dims).length = 2
                  unfold normalizeDims
                  rw [if_neg hk1, if_pos hk2, if_pos hs1]
                  simp [hs1]
                · have hnorm : normalizeDims t.dims = squeezeDims t.dims := by
                    unfold normalizeDims
                    rw [if_neg hk1, if_pos hk2, if_neg hs1]
                  rw [hnorm] at hlen2
                  rcases Nat.lt_or_ge (squeezeDims t.dims).length 3 with hlt | hge
                  · left
                    show (normalizeDims t.dims).length = 2
                    rw [hnorm]
                    omega
                  · right
                    exact hge
              · left
                have hnorm : normalizeDims t.dims = t.dims := by
                  unfold normalizeDims
                  rw [if_neg hk1, if_neg hk2]
                show (normalizeDims t.dims).length = 2
                rw [hnorm] at hlen2 ⊢
                omega

/-- Witness for C5: a rank-1 buffer gains a channel axis and passes. -/
theorem C5_validated_shape_witness :
    processAudioTensor ⟨[3], [1, 2, 3]⟩ = .ok ⟨[1, 3], [1, 2, 3]⟩ ∧
    (Tensor.mk [1, 3] [1, 2, 3]).dims = 1 :: [3] :=
  ⟨by decide,
   (C5_validated_shape ⟨[3], [1, 2, 3]⟩ ⟨[1, 3], [1, 2, 3]⟩ (by decide)).2.2.2.2.2.1
     rfl⟩

/-- Claim C6 counterexample: the OpenAI-compatible speech path returns the
encoder bytes with no zero-length check; on zero-length WAV output it fails
(because the analysis dictionary lacks the `generation_time` key), but with
a generic synthesis-failure error, not the encoding-failed error the claim
requires of every WAV-returning path. -/
theorem C6_openai_no_encoding_check :
    openai_speech_respond (analyze_audio_dict 24000 ⟨[1, 3], [1, 0, 0]⟩ 0 0) []
      = .error (.httpEx 500 "Synthesis failed: generation_time") ∧
    ApiFailure.httpEx 500 "Synthesis failed: generation_time"
      ≠ encodingFailedErr := by
  constructor
  · rfl
  · decide

/-- Claim C6 (amended): whenever WAV encoding yields zero-length output the
direct WAV download endpoint fails with the encoding-failed error, and the
OpenAI-compatible path never returns a success at all (it aborts on the
missing `generation_time` analysis key), so a zero-length WAV byte string
is never silently returned as a successful result by either path. -/
theorem C6_zero_length_wav (wavBytes : List Nat)
    (sampleRate rmsLevel dynRangeDb : ℚ) (t : Tensor)
    (h : wavBytes.length = 0) :
    synthesize_wav_respond wavBytes = .error encodingFailedErr ∧
    ∀ r, openai_speech_respond
        (analyze_audio_dict sampleRate t rmsLevel dynRangeDb) wavBytes
      ≠ .ok r := by
  constructor
  · unfold synthesize_wav_respond
    rw [if_pos h]
  · intro r hr
    have he : openai_speech_respond
        (analyze_audio_dict sampleRate t rmsLevel dynRangeDb) wavBytes
        = .error (.httpEx 500 "Synthesis failed: generation_time") := rfl
    rw [he] at hr
    cases hr

/-- Witness for the amended C6 at zero-length bytes. -/
theorem C6_zero_length_wav_witness :
    ([] : List Nat).length = 0 ∧
    synthesize_wav_respond [] = .error encodingFailedErr ∧
    ∀ r, openai_speech_respond
        (analyze_audio_dict 24000 ⟨[2, 5], [1, 1]⟩ 1 1) [] ≠ .ok r :=
  ⟨rfl, (C6_zero_length_wav [] 24000 1 1 ⟨[2, 5], [1, 1]⟩ rfl).1,
   (C6_zero_length_wav [] 24000 1 1 ⟨[2, 5], [1, 1]⟩ rfl).2⟩
